import Mathlib

/-!
Shallow embedding of `trommer2010.py`, an implementation of Trommer's (2010)
theory of Paradigmatic Generalisation of Morphemes, together with theorems
checking the natural-language specification against it.

Feature bundles are lists of feature strings (e.g. `"+1"`, `"Nom"`), a
disjunctive feature structure or paradigm cell is a list of bundles, exactly
as in the Python source where they are lists of strings and lists of lists
of strings.
-/

namespace Trommer2010

/-- A feature bundle: a list of signed feature strings, e.g.
`["Nom", "+1", "-2"]`.  In the Python source this is a plain `list` of `str`. -/
abbrev Bundle := List String

/-- A disjunctive feature structure / paradigm cell: a list of bundles. -/
abbrev FeatStruct := List Bundle

/-- Return the binary feature value (the Python function `value`): the
string `+` for true and `-` for false. -/
def value (boolean : Bool) : String :=
  if boolean then "+" else "-"

/-- Membership of a character in a string, the Python test `c in string`. -/
def strContains (s : String) (c : Char) : Bool :=
  s.data.contains c

/-- Lower-case every character of a string, the Python `lower` method. -/
def strLower (s : String) : String :=
  String.mk (s.data.map Char.toLower)

/-- Convert a person-number string to a single feature bundle, the source
function `feature_structure(string, case, intr=False)`.  Each slot is a
character-membership test on the token, concatenated with the feature name,
mirroring the format calls of the source. -/
def feature_structure (s : String) (case : String) (intr : Bool := false) :
    Bundle :=
  let first := value (strContains s '1') ++ "1"
  let second := value (strContains s '2' || strContains s 'i') ++ "2"
  let third := value (strContains s '3') ++ "3"
  let sg := value (strContains s 's') ++ "sg"
  let pl := value (strContains s 'p') ++ "pl"
  let struct := [case, first, second, third, sg, pl]
  if intr then struct ++ ["+intr"] else struct

/-- Split with count 1, the Python call `string.split(sep, 1)`, on a
character list: `none` when the separator does not occur, otherwise the
prefix before the FIRST occurrence paired with the (possibly
separator-containing) remainder after it. -/
def splitFirst (sep : Char) : List Char → Option (List Char × List Char)
  | [] => none
  | c :: cs =>
      if c = sep then some ([], cs)
      else (splitFirst sep cs).map (fun p => (c :: p.1, p.2))

/-- Convert a person-number string into a list of feature bundles, the
source function `parse_features(string, ergative=False)`.  Strings shaped
like `EXT>INT` are transitive (split on the first `>` only, via split with
count 1), other nonempty strings are intransitive, and the empty string
yields the empty list.  There is no input validation of any kind in the
source. -/
def parse_features (s : String) (ergative : Bool := false) : FeatStruct :=
  let sarg := if ergative then "Abs" else "Nom"
  let aarg := if ergative then "Erg" else "Nom"
  let parg := if ergative then "Abs" else "Acc"
  if s = "" then []
  else
    match splitFirst '>' s.data with
    | none => [feature_structure (strLower s) sarg true]
    | some (a, b) =>
        [feature_structure (strLower (String.mk a)) aarg,
         feature_structure (strLower (String.mk b)) parg]

/-- Bundle subsumption, the set comparison inside `subsumes`: every feature
of the smaller bundle is present in the larger bundle. -/
def bundleSub (mstruct pstruct : Bundle) : Bool :=
  mstruct.all (fun f => pstruct.contains f)

/-- Check if a vocabulary item subsumes the features in a paradigm cell,
the source function `subsumes(paradigm_cell, morpheme)`: every bundle of
`morpheme` must be a subset of at least one bundle of `paradigm_cell`. -/
def subsumes (paradigm_cell morpheme : FeatStruct) : Bool :=
  morpheme.all (fun mstruct =>
    paradigm_cell.any (fun pstruct => bundleSub mstruct pstruct))

/-- A Vocabulary Item: a phonological form together with a morpho-syntactic
meaning (a disjunctive feature structure). -/
structure VI where
  form : String
  meaning : FeatStruct
deriving DecidableEq, Repr

/-- Delete the given features from every bundle of the meaning of the item,
the source method `VI.del_features(features, leftovers=None)`.  (The
`leftovers` argument is accepted and ignored, as in the source.) -/
def VI.del_features (vi : VI) (features : List String)
    (leftovers : List String := []) : VI :=
  { vi with
    meaning := vi.meaning.map (fun fset =>
      fset.filter (fun feature => !(features.contains feature))) }

/-- A Generalisation Rule: a bundle of features to delete, and a context
(a disjunctive feature structure) conditioning its application. -/
structure GenRule where
  features : List String
  context : FeatStruct
  leftovers : List String := []
deriving DecidableEq, Repr

/-- Apply the generalisation rule to a vocabulary item list, the source
method `GenRule.apply(morpheme_list)`: delete the features of the rule from
every item. -/
def GenRule.apply (r : GenRule) (morpheme_list : List VI) : List VI :=
  morpheme_list.map (fun morpheme => morpheme.del_features r.features r.leftovers)

/-- A language: vocabulary items, generalisation rules, and typological
flags.  (The Python constructor also accepts an `ergative` keyword but never
stores it; alignment is instead a parameter of `draw_paradigm`.) -/
structure Language where
  morphemes : List VI := []
  rules : List GenRule := []
  dual : Bool := false
  inclusive : Bool := false
  transitive : Bool := false
deriving DecidableEq, Repr

/-- Insert vocabulary items into a paradigm cell, the source method
`Language.realise_cell(cell)`: deep-copy the stored morpheme list, apply
each rule (in list order, once) whose context is subsumed by the cell to the
copy, and return the items of the copy whose meaning is subsumed by the
cell. -/
def Language.realise_cell (lang : Language) (cell : FeatStruct) : List VI :=
  let morphemes := lang.rules.foldl
    (fun ms rule => if subsumes cell rule.context then rule.apply ms else ms)
    lang.morphemes
  morphemes.filter (fun vi => subsumes cell vi.meaning)

/-- Variant of `realise_cell` with the effect of the call on the receiver
made explicit.  In the source the method first binds
`morphemes = deepcopy(self.morphemes)`, a fresh structural copy sharing no
mutable part with `self.morphemes`; the rules then mutate only that copy
(`rule.apply(morphemes)`), and `self.morphemes` is never reassigned nor
reachable from the mutated list, so the language state after the call stores
the same morphemes as before.  The pair returned here is (returned
insertable list, language state after the call). -/
def Language.realise_cell_st (lang : Language) (cell : FeatStruct) :
    List VI × Language :=
  (lang.realise_cell cell, { lang with morphemes := lang.morphemes })

/-- The disjoint-reference test of `draw_paradigm`: a subject/object pair is
skipped when both contain `1`, both contain `2`, or one contains `2` and
the other contains `i`. -/
def coref (subj obj : String) : Bool :=
  (strContains subj '1' && strContains obj '1') ||
  (strContains subj '2' && strContains obj '2') ||
  (strContains subj '2' && strContains obj 'i') ||
  (strContains subj 'i' && strContains obj '2')

/-- The subject tokens enumerated by `draw_paradigm`: persons crossed with
numbers under the typological flags, minus the pair `("1i", "s")`. -/
def Language.subjects (lang : Language) : List String :=
  let persons := if lang.inclusive then ["1", "1i", "2", "3"] else ["1", "2", "3"]
  let numbers := if lang.dual then ["s", "d", "p"] else ["s", "p"]
  persons.flatMap (fun pers =>
    (numbers.filter (fun num => !(pers == "1i" && num == "s"))).map
      (fun num => pers ++ num))

/-- The person-number string table built by `draw_paradigm`: in transitive
mode each row is the subject token followed by one entry per object —
`""` for a coreferent pair, `subj ++ ">" ++ obj` otherwise; in intransitive
mode each row is the singleton subject token. -/
def Language.pntable (lang : Language) : List (List String) :=
  let subjects := lang.subjects
  if lang.transitive then
    subjects.map (fun subj =>
      subj :: subjects.map (fun obj =>
        if coref subj obj then "" else subj ++ ">" ++ obj))
  else
    subjects.map (fun subj => [subj])

/-- The realised paradigm of `draw_paradigm`: `realise_cell` is applied to
`parse_features` of EVERY entry of `pntable` — the subject token itself
(the `intr` column) and the `""` entries of skipped pairs included. -/
def Language.paradigm (lang : Language) (ergative : Bool) :
    List (List (List VI)) :=
  lang.pntable.map (fun row =>
    row.map (fun cell => lang.realise_cell (parse_features cell ergative)))

/-- The data array `draw_paradigm` hands to `make_table` (the pure part of
the method, before ascii layout and printing): a header row, then one row
per subject holding the subject label and the concatenated forms of the
inserted vocabulary items of each realised cell. -/
def Language.paradigm_table (lang : Language) (ergative : Bool) :
    List (List String) :=
  let subjects := lang.subjects
  let paradigm := lang.paradigm ergative
  (["", "intr"] ++ (if lang.transitive then subjects else []))
    :: List.zipWith (fun subj row =>
        subj :: row.map (fun cell => String.join (cell.map VI.form)))
      subjects paradigm

/-- Deleting one feature set and then another from a vocabulary item is the
same in either order: each deletion is a pure filter on every bundle, and
filters commute. -/
lemma del_features_comm (vi : VI) (f1 f2 l1 l2 : List String) :
    (vi.del_features f1 l1).del_features f2 l2
      = (vi.del_features f2 l2).del_features f1 l1 := by
  cases vi with
  | mk form meaning =>
      simp only [VI.del_features, List.map_map, VI.mk.injEq, true_and]
      refine List.map_congr_left (fun fset _ => ?_)
      exact List.filter_comm _ _ _

/-- Applying one generalisation rule and then another to a morpheme list is
the same in either order. -/
lemma gen_rule_apply_comm (r1 r2 : GenRule) (ms : List VI) :
    r2.apply (r1.apply ms) = r1.apply (r2.apply ms) := by
  simp only [GenRule.apply, List.map_map]
  refine List.map_congr_left (fun vi _ => ?_)
  exact del_features_comm vi r1.features r2.features r1.leftovers r2.leftovers

/-- Swapping the two rules of a two-rule language never changes
`realise_cell`: each rule's context is tested against the unchanging cell,
and the two deletions commute. -/
lemma realise_cell_swap (ms : List VI) (r1 r2 : GenRule) (d i t : Bool)
    (cell : FeatStruct) :
    (Language.mk ms [r1, r2] d i t).realise_cell cell
      = (Language.mk ms [r2, r1] d i t).realise_cell cell := by
  by_cases hc1 : subsumes cell r1.context = true <;>
    by_cases hc2 : subsumes cell r2.context = true <;>
    simp [Language.realise_cell, hc1, hc2, gen_rule_apply_comm]

/-- The language state after a `realise_cell` call is the language itself:
the rules were applied to the deep copy only. -/
lemma realise_cell_st_state (lang : Language) (cell : FeatStruct) :
    (lang.realise_cell_st cell).2 = lang := rfl

/-- C1 counterexample: the claimed order-observability is impossible.  There
is NO language and cell for which swapping two rules changes the result of
`realise_cell`: rule contexts are matched against the paradigm cell, which
no rule can alter, and feature deletions are commuting filters, so the
claimed profile with `[R1,R2] ≠ [R2,R1]` behaviour cannot be constructed. -/
theorem c1_order_observable_counterexample :
    ¬ ∃ (ms : List VI) (d i t : Bool) (cell : FeatStruct) (r1 r2 : GenRule),
        (Language.mk ms [r1, r2] d i t).realise_cell cell
          ≠ (Language.mk ms [r2, r1] d i t).realise_cell cell := by
  rintro ⟨ms, d, i, t, cell, r1, r2, h⟩
  exact h (realise_cell_swap ms r1 r2 d i t cell)

/-- C1 (amended): rule application in `realise_cell` is a single sequential
pass over the rule list (each rule fires at most once, with no fixpoint
iteration), but the order is NOT observable: since every rule's context is
matched against the immutable paradigm cell and deletions commute, applying
`[R1, R2]` and `[R2, R1]` always yields the same realisation. -/
theorem c1_single_pass_order_invariant (ms : List VI) (r1 r2 : GenRule)
    (d i t : Bool) (cell : FeatStruct) :
    (Language.mk ms [r1, r2] d i t).realise_cell cell
      = (Language.mk ms [r2, r1] d i t).realise_cell cell :=
  realise_cell_swap ms r1 r2 d i t cell

/-- C5: `realise_cell` never mutates the language's stored morphemes: after
any number of calls (on any cells), the stored morpheme list — hence every
VI's meaning in it — is identical to what it was before. -/
theorem c5_realise_cell_no_mutation (lang : Language) (cells : List FeatStruct) :
    (cells.foldl (fun l c => (l.realise_cell_st c).2) lang).morphemes
      = lang.morphemes := by
  induction cells generalizing lang with
  | nil => rfl
  | cons c cs ih => exact ih lang

/-- C6: `realise_cell` is pure and deterministic: realising any other cells
first (in any number and order) never changes the result for a given
`(profile, cell)` pair — the call after any interleaving equals the direct
call on the original profile. -/
theorem c6_realise_cell_deterministic (lang : Language)
    (others : List FeatStruct) (cell : FeatStruct) :
    ((others.foldl (fun l c => (l.realise_cell_st c).2) lang).realise_cell_st
        cell).1
      = (lang.realise_cell_st cell).1 := by
  induction others generalizing lang with
  | nil => rfl
  | cons c cs ih => exact ih lang

/-- C10: applying a generalisation rule preserves every VI's form, the
number of VIs, and the number of bundles in every VI's meaning — deletion
only removes features from within bundles, and a fully-emptied bundle stays
present as an empty bundle, which bundle subsumption treats as a subset of
any cell bundle. -/
theorem c10_rule_apply_preserves_shape (r : GenRule) (ms : List VI) :
    ((r.apply ms).map VI.form = ms.map VI.form)
    ∧ ((r.apply ms).length = ms.length)
    ∧ ((r.apply ms).map (fun vi => vi.meaning.length)
        = ms.map (fun vi => vi.meaning.length))
    ∧ (∀ p : Bundle, bundleSub [] p = true) := by
  refine ⟨?_, ?_, ?_, fun p => rfl⟩ <;>
    simp [GenRule.apply, VI.del_features]

/-- C3 counterexample: on the empty paradigm cell (the empty list of
bundles, which is what `parse_features ""` yields), the condition structure
consisting of one empty bundle is NOT subsumed: the existential search over
the cell's bundles is over an empty list, so it fails. -/
theorem c3_empty_cell_counterexample :
    subsumes ([] : FeatStruct) [([] : Bundle)] = false := by
  decide

/-- C3 (amended): for every NON-EMPTY paradigm cell, the condition structure
consisting of one empty bundle is trivially subsumed. -/
theorem c3_empty_bundle_subsumed (cell : FeatStruct) (h : cell ≠ []) :
    subsumes cell [([] : Bundle)] = true := by
  cases cell with
  | nil => exact absurd rfl h
  | cons p ps => simp [subsumes, bundleSub]

/-- C3 witness: the amended theorem applied at the concrete cell
`[["Nom"]]`. -/
theorem c3_empty_bundle_subsumed_witness :
    ([["Nom"]] : FeatStruct) ≠ [] ∧ subsumes [["Nom"]] [([] : Bundle)] = true :=
  ⟨by decide, c3_empty_bundle_subsumed [["Nom"]] (by decide)⟩

/-- C4: `subsumes cell structure` holds iff every bundle in `structure` is a
subset (as signed features) of at least one bundle in `cell`: an existential
match per condition bundle, not a positional pairing. -/
theorem c4_subsumes_iff_exists_superset (cell struct : FeatStruct) :
    subsumes cell struct = true ↔
      ∀ b ∈ struct, ∃ p ∈ cell, ∀ f ∈ b, f ∈ p := by
  simp [subsumes, bundleSub, List.all_eq_true, List.any_eq_true]

/-- C7: for every token, `feature_structure` yields exactly 6 features
(7 when intransitive): the case label first, then signed person-1, person-2,
person-3, singular and plural slots decided by character membership (with
the letter `i` feeding the person-2 slot), and optionally the transitivity
marker last.  A token containing neither `s` nor `p` (dual) therefore gets
minus-valued singular and plural slots and no dedicated dual feature. -/
theorem c7_feature_structure_slots (s case : String) (intr : Bool) :
    (feature_structure s case intr).length = (if intr then 7 else 6)
    ∧ (feature_structure s case intr)[0]? = some case
    ∧ ((feature_structure s case intr)[1]? = some "+1" ↔ strContains s '1' = true)
    ∧ ((feature_structure s case intr)[1]? = some "-1" ↔ strContains s '1' = false)
    ∧ ((feature_structure s case intr)[2]? = some "+2" ↔
        (strContains s '2' || strContains s 'i') = true)
    ∧ ((feature_structure s case intr)[2]? = some "-2" ↔
        (strContains s '2' || strContains s 'i') = false)
    ∧ ((feature_structure s case intr)[3]? = some "+3" ↔ strContains s '3' = true)
    ∧ ((feature_structure s case intr)[3]? = some "-3" ↔ strContains s '3' = false)
    ∧ ((feature_structure s case intr)[4]? = some "+sg" ↔ strContains s 's' = true)
    ∧ ((feature_structure s case intr)[4]? = some "-sg" ↔ strContains s 's' = false)
    ∧ ((feature_structure s case intr)[5]? = some "+pl" ↔ strContains s 'p' = true)
    ∧ ((feature_structure s case intr)[5]? = some "-pl" ↔ strContains s 'p' = false)
    ∧ (feature_structure s case intr)[6]? = (if intr then some "+intr" else none) := by
  cases h1 : strContains s '1' <;> cases h2 : strContains s '2' <;>
    cases hi : strContains s 'i' <;> cases h3 : strContains s '3' <;>
    cases hs : strContains s 's' <;> cases hp : strContains s 'p' <;>
    cases intr <;>
    simp [feature_structure, value, h1, h2, hi, h3, hs, hp]

/-- The split finds nothing exactly when the separator does not occur. -/
lemma splitFirst_eq_none (sep : Char) (l : List Char) :
    splitFirst sep l = none ↔ sep ∉ l := by
  induction l with
  | nil => simp [splitFirst]
  | cons c cs ih =>
      by_cases h : c = sep
      · simp [splitFirst, h]
      · rcases hsp : splitFirst sep cs with _ | p
        · have hni : sep ∉ cs := ih.mp hsp
          have hne : sep ≠ c := fun hq => h hq.symm
          simp [splitFirst, h, hsp, hni, hne]
        · have hin : sep ∈ cs := by
            by_contra hx
            rw [ih.mpr hx] at hsp
            cases hsp
          simp [splitFirst, h, hsp, hin]

/-- The split happens at the FIRST occurrence of the separator: whatever
(further separators included) follows that occurrence lands unsplit in the
second component. -/
lemma splitFirst_append (sep : Char) (a b : List Char) (h : sep ∉ a) :
    splitFirst sep (a ++ sep :: b) = some (a, b) := by
  induction a with
  | nil => simp [splitFirst]
  | cons c cs ih =>
      have hc : c ≠ sep := fun hcs => h (hcs ▸ List.mem_cons_self c cs)
      have hcs : sep ∉ cs := fun hm => h (List.mem_cons_of_mem c hm)
      simp [splitFirst, hc, ih hcs]

/-- A string with a `>` spliced into it is never empty. -/
lemma append_gt_ne_empty (a b : String) : a ++ ">" ++ b ≠ "" := by
  intro h
  have := congrArg String.data h
  simp [String.data_append] at this

/-- C2 counterexample: `parse_features` performs no validation and raises
no error.  A string with a second `>` is silently split at the first one
only, the remainder `3s>2p` being read as a single patient token whose
characters `2`, `3`, `s`, `p` all fire, and a string made of characters
outside the token vocabulary (`4x`) silently parses to an all-minus
intransitive bundle.  In both cases a value is returned and cell computation
proceeds — there is no InputFormat (or any other) failure anywhere in the
source. -/
theorem c2_no_validation_counterexample :
    parse_features "1s>3s>2p" false
        = [["Nom", "+1", "-2", "-3", "+sg", "-pl"],
           ["Acc", "-1", "+2", "+3", "+sg", "+pl"]]
      ∧ parse_features "4x" false
        = [["Nom", "-1", "-2", "-3", "-sg", "-pl", "+intr"]] := by
  constructor <;> decide

/-- C2 (amended): `parse_features` is total and never fails: every input
string — including strings with characters outside the token vocabulary or
with additional `>` characters — is silently parsed into 0 bundles (empty
input), 2 bundles (some `>` present), or 1 bundle (otherwise). -/
theorem c2_parse_features_total (s : String) (erg : Bool) :
    (parse_features s erg).length =
      if s = "" then 0 else if '>' ∈ s.data then 2 else 1 := by
  by_cases hs : s = ""
  · simp [parse_features, hs]
  · rcases h : splitFirst '>' s.data with _ | ⟨a, b⟩
    · have hm : '>' ∉ s.data := (splitFirst_eq_none '>' s.data).mp h
      simp [parse_features, hs, h, hm]
    · have hm : '>' ∈ s.data := by
        by_contra hc
        rw [← splitFirst_eq_none '>' s.data] at hc
        rw [h] at hc
        cases hc
      simp [parse_features, hs, h, hm]

/-- C2 witness: the totality theorem applied at the misparsed transitive
input with a second `>` character. -/
theorem c2_parse_features_total_witness :
    (parse_features "1s>3s>2p" false).length =
      if "1s>3s>2p" = "" then 0 else
        if '>' ∈ "1s>3s>2p".data then 2 else 1 :=
  c2_parse_features_total "1s>3s>2p" false

/-- C8: `parse_features` on the empty string yields the empty structure; on
`"1s>3s"` it yields exactly the bundles of the claim under both alignments
(nominative labels `Nom`/`Acc`, ergative labels `Erg`/`Abs`); the
intransitive bundle — and only it — carries the transitivity marker (shown
on the input `1di`); and the split is at the FIRST `>` only: for any prefix
without `>` and ANY suffix, the prefix becomes the agent token and the
whole suffix the patient token. -/
theorem c8_parse_features_spec :
    parse_features "" false = []
    ∧ parse_features "" true = []
    ∧ parse_features "1s>3s" false
        = [["Nom", "+1", "-2", "-3", "+sg", "-pl"],
           ["Acc", "-1", "-2", "+3", "+sg", "-pl"]]
    ∧ parse_features "1s>3s" true
        = [["Erg", "+1", "-2", "-3", "+sg", "-pl"],
           ["Abs", "-1", "-2", "+3", "+sg", "-pl"]]
    ∧ parse_features "1di" false
        = [["Nom", "+1", "+2", "-3", "-sg", "-pl", "+intr"]]
    ∧ parse_features "1di" true
        = [["Abs", "+1", "+2", "-3", "-sg", "-pl", "+intr"]]
    ∧ (∀ (s : String) (erg : Bool), s ≠ "" → '>' ∉ s.data →
        parse_features s erg
          = [feature_structure (strLower s) (if erg then "Abs" else "Nom") true])
    ∧ (∀ (a b : String) (erg : Bool), '>' ∉ a.data →
        parse_features (a ++ ">" ++ b) erg
          = [feature_structure (strLower a) (if erg then "Erg" else "Nom"),
             feature_structure (strLower b) (if erg then "Abs" else "Acc")]) := by
  refine ⟨by decide, by decide, by decide, by decide, by decide, by decide,
    ?_, ?_⟩
  · intro s erg hs hm
    have h : splitFirst '>' s.data = none := (splitFirst_eq_none '>' s.data).mpr hm
    cases erg <;> simp [parse_features, hs, h]
  · intro a b erg ha
    have hne : a ++ ">" ++ b ≠ "" := append_gt_ne_empty a b
    have hdata : (a ++ ">" ++ b).data = a.data ++ '>' :: b.data := by
      simp [String.data_append]
    have h : splitFirst '>' (a.data ++ '>' :: b.data) = some (a.data, b.data) :=
      splitFirst_append '>' a.data b.data ha
    cases erg <;> simp [parse_features, hne, hdata, h]

/-- C8 witness: the first-split clause applied with agent token `1s` and
suffix `3s>2p`, whose second `>` stays inside the patient token, and the
intransitive clause applied at the token `1di`. -/
theorem c8_parse_features_spec_witness :
    parse_features ("1s" ++ ">" ++ "3s>2p") false
        = [feature_structure (strLower "1s") "Nom",
           feature_structure (strLower "3s>2p") "Acc"]
    ∧ parse_features "1di" false
        = [feature_structure (strLower "1di") "Nom" true] :=
  ⟨by
    have h := c8_parse_features_spec.2.2.2.2.2.2.2 "1s" "3s>2p" false (by decide)
    simpa using h,
   by
    have h := c8_parse_features_spec.2.2.2.2.2.2.1 "1di" false (by decide) (by decide)
    simpa using h⟩

/-- C9 counterexample: excluded cells ARE passed to `realise_cell` and need
not render blank.  In the inclusive transitive language with the single
vocabulary item `/x/: [[]]` (zero-bundle meaning) and no rules, the pair
(subject `"1ip"`, object `"2s"`) is excluded from enumeration (its `pntable`
entry is the empty token), yet its rendered paradigm entry is the form
`x`, not a blank:
`draw_paradigm` feeds the empty token through
`realise_cell(parse_features(""))` like any other cell, and the zero-bundle
meaning is subsumed by the empty cell. -/
theorem c9_excluded_cell_rendered_counterexample :
    ((Language.mk [VI.mk "x" []] [] false true true).pntable)[2]?
        = some ["1ip", "", "", "", "", "", "1ip>3s", "1ip>3p"]
    ∧ (((Language.mk [VI.mk "x" []] [] false true true).paradigm_table
          false))[3]?
        = some ["1ip", "x", "x", "x", "x", "x", "x", "x", "x"] :=
  ⟨rfl, rfl⟩

/-- C9 (amended): the paradigm builder enumerates subjects as the cross
product of persons (with 1-inclusive iff `inclusive`) and numbers (with
dual iff `dual`) minus (1-inclusive, singular), and in transitive mode a
subject/object pair is excluded exactly when both contain person-1, both
contain person-2, or one contains person-2 and the other is 1-inclusive
(the entry of the pair is empty iff the coreference test fires).  However,
the excluded cells are NOT skipped: their empty entry is parsed to the empty
structure and passed to `realise_cell` like any other cell — e.g. the
(`"1ip"`, `"2s"`) slot of the rendered table is the concatenation of the
forms returned by `realise_cell` on the empty cell (blank only when that
call returns no items). -/
theorem c9_paradigm_enumeration (ms : List VI) (rs : List GenRule) :
    (Language.mk ms rs false true true).subjects
        = ["1s", "1p", "1ip", "2s", "2p", "3s", "3p"]
    ∧ (Language.mk ms rs true true true).subjects
        = ["1s", "1d", "1p", "1id", "1ip", "2s", "2d", "2p", "3s", "3d", "3p"]
    ∧ (Language.mk ms rs false false true).subjects
        = ["1s", "1p", "2s", "2p", "3s", "3p"]
    ∧ (Language.mk ms rs true false true).subjects
        = ["1s", "1d", "1p", "2s", "2d", "2p", "3s", "3d", "3p"]
    ∧ ((Language.mk ms rs false true true).pntable)[2]?
        = some ["1ip", "", "", "", "", "", "1ip>3s", "1ip>3p"]
    ∧ ((((Language.mk ms rs false true true).paradigm_table false))[3]?.bind
          (fun row => row[5]?))
        = some (String.join
            (((Language.mk ms rs false true true).realise_cell []).map VI.form))
    ∧ (∀ subj obj : String,
        (if coref subj obj then "" else subj ++ ">" ++ obj) = ""
          ↔ coref subj obj = true) := by
  refine ⟨rfl, rfl, rfl, rfl, rfl, rfl, fun subj obj => ?_⟩
  cases h : coref subj obj <;> simp [h, append_gt_ne_empty subj obj]

/-- C1 witness: the order-invariance theorem applied to a concrete two-rule
language and cell. -/
theorem c1_single_pass_order_invariant_witness :
    (Language.mk [VI.mk "a" [["+1"], ["+2"]]]
        [GenRule.mk ["+1"] [[]] [], GenRule.mk ["+2"] [[]] []]
        false false false).realise_cell [["+1", "+2"]]
      = (Language.mk [VI.mk "a" [["+1"], ["+2"]]]
          [GenRule.mk ["+2"] [[]] [], GenRule.mk ["+1"] [[]] []]
          false false false).realise_cell [["+1", "+2"]] :=
  c1_single_pass_order_invariant [VI.mk "a" [["+1"], ["+2"]]]
    (GenRule.mk ["+1"] [[]] []) (GenRule.mk ["+2"] [[]] [])
    false false false [["+1", "+2"]]

/-- C4 witness: the subsumption characterisation applied to a concrete cell
and condition structure. -/
theorem c4_subsumes_iff_exists_superset_witness :
    subsumes [["Nom", "+1", "-pl"], ["Acc", "+3", "-pl"]] [["+3"], ["+1"]] = true
      ↔ ∀ b ∈ ([["+3"], ["+1"]] : FeatStruct),
          ∃ p ∈ ([["Nom", "+1", "-pl"], ["Acc", "+3", "-pl"]] : FeatStruct),
            ∀ f ∈ b, f ∈ p :=
  c4_subsumes_iff_exists_superset [["Nom", "+1", "-pl"], ["Acc", "+3", "-pl"]]
    [["+3"], ["+1"]]

/-- C5 witness: the no-mutation theorem applied to a concrete language and a
concrete two-cell call sequence. -/
theorem c5_realise_cell_no_mutation_witness :
    (([[["Nom", "+1"]], []] : List FeatStruct).foldl
        (fun l c => (l.realise_cell_st c).2)
        (Language.mk [VI.mk "a" [["+1"]]] [GenRule.mk ["+1"] [[]] []]
          false false false)).morphemes
      = (Language.mk [VI.mk "a" [["+1"]]] [GenRule.mk ["+1"] [[]] []]
          false false false).morphemes :=
  c5_realise_cell_no_mutation
    (Language.mk [VI.mk "a" [["+1"]]] [GenRule.mk ["+1"] [[]] []]
      false false false)
    [[["Nom", "+1"]], []]

/-- C6 witness: the determinism theorem applied to a concrete language, a
concrete interleaved cell and a concrete target cell. -/
theorem c6_realise_cell_deterministic_witness :
    ((([[["Acc", "+3"]]] : List FeatStruct).foldl
        (fun l c => (l.realise_cell_st c).2)
        (Language.mk [VI.mk "a" [["+1"]]] [] false false false)).realise_cell_st
          [["Nom", "+1"]]).1
      = ((Language.mk [VI.mk "a" [["+1"]]] [] false false
          false).realise_cell_st [["Nom", "+1"]]).1 :=
  c6_realise_cell_deterministic
    (Language.mk [VI.mk "a" [["+1"]]] [] false false false)
    [[["Acc", "+3"]]] [["Nom", "+1"]]

/-- C7 witness: the slot theorem applied to the dual token `1d`. -/
theorem c7_feature_structure_slots_witness :
    (feature_structure "1d" "Nom" true).length = (if true then 7 else 6) :=
  (c7_feature_structure_slots "1d" "Nom" true).1

/-- C9 witness: the enumeration theorem applied to the empty morpheme and
rule lists. -/
theorem c9_paradigm_enumeration_witness :
    (Language.mk [] [] false true true).subjects
      = ["1s", "1p", "1ip", "2s", "2p", "3s", "3p"] :=
  (c9_paradigm_enumeration [] []).1

/-- C10 witness: the shape-preservation theorem applied to a concrete rule
and morpheme list. -/
theorem c10_rule_apply_preserves_shape_witness :
    ((GenRule.mk ["+1"] [[]] []).apply [VI.mk "a" [["+1"]]]).map VI.form
      = ([VI.mk "a" [["+1"]]]).map VI.form :=
  (c10_rule_apply_preserves_shape (GenRule.mk ["+1"] [[]] [])
    [VI.mk "a" [["+1"]]]).1

end Trommer2010
